import Mathlib

/-!
# Verification of the table-session lifecycle engine

A shallow embedding of the lifecycle controllers of the dine-in ordering
backend (order, table, bill controllers and the socket handlers), together
with theorems settling the specification claims about them.

Conventions of the embedding:
* Mongo documents become Lean structures; the store is a `DB` of lists.
* `Model.findById` / `findOne` become `List.find?` on the id or filter.
* Saving a fetched, mutated document becomes `saveDoc`: replace the list
  entry with the same id.
* Monetary amounts are `ℚ`; JS numbers carry no overflow here.
* HTTP results are status codes plus the payload fields a claim needs.
* Statuses are `String`s, as in the source; Mongoose enum validation on
  `save()` is modelled by membership checks in the schema's enum list
  (a failed validation surfaces as a 500 through the generic handler).
-/

namespace BackRedis

/-- Menu item, the fields read by `createOrder` (menuItem model). -/
structure MenuItem where
  id : Nat
  name : String
  price : ℚ
  isAvailable : Bool
deriving DecidableEq, Repr

/-- A line item of an order (orderItemSchema in order.model.js). -/
structure OrderItem where
  menuItem : Nat
  name : String
  price : ℚ
  quantity : Nat
  total : ℚ
  specialInstructions : String
deriving DecidableEq, Repr

/-- An order document (orderSchema in order.model.js). -/
structure Order where
  id : Nat
  user : Option Nat
  items : List OrderItem
  tableId : Option Nat
  subtotal : ℚ
  deliveryFee : ℚ
  total : ℚ
  orderType : String
  status : String
  paymentStatus : String
  paymentId : Option String
deriving DecidableEq, Repr

/-- Modelled from the spec: the table-session schema file is not under
src/; its fields are reconstructed from §3 of the spec (tableRef,
clientRef, status ∈ active / payment_pending / closed / completed,
startTime, endTime, ordered orderRefs) and from every controller access
(`session.orders`, `session.status`, `session.endTime`,
`session.tableId`). -/
structure TableSession where
  id : Nat
  tableId : Nat
  clientId : Option Nat
  status : String
  startTime : Nat
  endTime : Option Nat
  orders : List Nat
deriving DecidableEq, Repr

/-- Modelled from the spec: the table schema file is not under src/; the
fields follow §3 of the spec (status ∈ available / occupied / cleaning,
isActive, nullable currentSession) and the controllers' accesses
(`table.tableId` external code, `table.currentSession`). -/
structure Table where
  id : Nat
  tableId : String
  status : String
  isActive : Bool
  currentSession : Option Nat
deriving DecidableEq, Repr

/-- Modelled from the spec: the bill schema file is not under src/; fields
follow §3 and the bill controller's accesses (`tableSessionId`, `total`,
`paymentStatus`, `paymentMethod`, `processedBy`). -/
structure Bill where
  id : Nat
  tableSessionId : Nat
  total : ℚ
  paymentStatus : String
  paymentMethod : Option String
  processedBy : Option Nat
deriving DecidableEq, Repr

/-- The entity store: one list per collection.  Users are kept as bare
ids, the only thing the lifecycle code reads of them is existence. -/
structure DB where
  users : List Nat
  menuItems : List MenuItem
  orders : List Order
  sessions : List TableSession
  tables : List Table
  bills : List Bill
deriving DecidableEq, Repr

/-- `Model.findById` on the orders collection. -/
def DB.findOrder (db : DB) (i : Nat) : Option Order :=
  db.orders.find? (fun o => o.id == i)

/-- `Model.findById` on the sessions collection. -/
def DB.findSession (db : DB) (i : Nat) : Option TableSession :=
  db.sessions.find? (fun s => s.id == i)

/-- `Model.findById` on the tables collection. -/
def DB.findTable (db : DB) (i : Nat) : Option Table :=
  db.tables.find? (fun t => t.id == i)

/-- Saving a fetched document: atomically replace the entry with the same
id (Mongoose `doc.save()` on a loaded document). -/
def saveDoc {α : Type} (key : α → Nat) (d : α) (l : List α) : List α :=
  l.map (fun x => if key x = key d then d else x)

/-- Schema enum for `Order.status` (order.model.js lines 32-36). -/
def orderStatusEnum : List String :=
  ["pending", "confirmed", "preparing", "cancelled", "ready_for_pickup"]

/-- Schema enum for `Order.paymentStatus` (order.model.js line 37). -/
def paymentStatusEnum : List String := ["pending", "paid", "failed"]

/-- Schema enum for `Order.orderType` (order.model.js lines 27-31). -/
def orderTypeEnum : List String := ["Take Away", "Delivery", "Dine In"]

/-- Modelled from the spec: the table schema is not under src/; §3 fixes
`status ∈ {available, occupied, cleaning}`. -/
def tableStatusEnum : List String := ["available", "occupied", "cleaning"]

/-- `updateOrderStatus`'s list of kitchen-relevant statuses
(order.controller.js line 250). -/
def kitchenRelevantStatuses : List String :=
  ["pending", "confirmed", "preparing", "ready_for_pickup", "completed", "cancelled"]

/-- The active-side statuses of the kitchen cache split
(order.controller.js line 287). -/
def activeStatuses : List String := ["pending", "confirmed", "preparing"]

/-- The completed-side statuses of the kitchen cache split
(order.controller.js line 286). -/
def completedStatuses : List String := ["ready_for_pickup", "completed", "cancelled"]

/-- The cache keys the order controller and the socket layer touch; each
constructor stands for one key template of the source
(`order:details:<id>`, `order:user:<id>`, `order:session:<id>`,
`kitchen:active_orders`, `kitchen:completed_orders`). -/
inductive CacheKey where
  | orderDetails (orderId : Nat)
  | userOrders (userId : Nat)
  | sessionOrders (sessionId : Nat)
  | kitchenActive
  | kitchenCompleted
deriving DecidableEq, Repr

/-- One observable side effect of a handler, in program order. -/
inductive Effect where
  | commit (orderId : Nat)
  | notifyKitchen
  | invalidate (key : CacheKey)
deriving DecidableEq, Repr

/-- Whether an effect is the kitchen socket emission. -/
def Effect.isNotify : Effect → Bool
  | .notifyKitchen => true
  | _ => false

/-- Whether an effect is a cache-key drop. -/
def Effect.isInvalidate : Effect → Bool
  | .invalidate _ => true
  | _ => false

/-- The keys dropped along a trace of effects. -/
def deletedKeys (tr : List Effect) : List CacheKey :=
  tr.filterMap (fun e => match e with | .invalidate k => some k | _ => none)

/-- Ambient environment of a request: whether `req.io` is present, whether
redis reports connected, and whether a kitchen socket id is registered in
redis (`kitchen:socket_id`). -/
structure Env where
  ioAvailable : Bool
  redisConnected : Bool
  kitchenRegistered : Bool
deriving DecidableEq, Repr

/-- `notifyKitchenAboutOrderUpdate` (socket file lines 589-620): when a
kitchen socket is registered it emits `order_status_updated` and only
afterwards drops the `kitchen:active_orders` key; with no registration it
returns without doing either. -/
def notifyKitchenAboutOrderUpdate (env : Env) : List Effect :=
  if env.kitchenRegistered then
    [Effect.notifyKitchen, Effect.invalidate CacheKey.kitchenActive]
  else []

/-- A requested line item of `createOrder` (`req.body.items[i]`); a zero
`menuItemId` or `quantity` plays the JS falsy value of a missing field. -/
structure OrderItemReq where
  menuItemId : Nat
  quantity : Nat
  specialInstructions : Option String
deriving DecidableEq, Repr

/-- The body of a `createOrder` request (order.controller.js line 30). -/
structure CreateOrderReq where
  userId : Option Nat
  items : List OrderItemReq
  sessionId : Option Nat
  tableId : Option String
  orderType : String
  deviceId : Option String
deriving DecidableEq, Repr

/-- The item loop of `createOrder` (order.controller.js lines 51-82):
validates each requested item against the menu, snapshots name and price,
computes the line total `price * quantity` and accumulates the subtotal.
Errors carry the HTTP status the handler responds with. -/
def buildItems (db : DB) : List OrderItemReq → Except Nat (List OrderItem × ℚ)
  | [] => .ok ([], 0)
  | r :: rest =>
    if r.menuItemId = 0 || r.quantity = 0 then .error 400
    else
      match db.menuItems.find? (fun m => m.id == r.menuItemId) with
      | none => .error 404
      | some m =>
        if !m.isAvailable then .error 400
        else
          match buildItems db rest with
          | .error e => .error e
          | .ok (its, sub) =>
            .ok ({ menuItem := r.menuItemId, name := m.name, price := m.price,
                   quantity := r.quantity, total := m.price * (r.quantity : ℚ),
                   specialInstructions := r.specialInstructions.getD "" } :: its,
                 m.price * (r.quantity : ℚ) + sub)

/-- `Table.findOne({ tableId })` of `createOrder` (lines 90-95): resolve
the external table code to the table's store id, `none` when absent. -/
def lookupTableDbId (db : DB) : Option String → Option Nat
  | none => none
  | some code => (db.tables.find? (fun t => t.tableId == code)).map Table.id

/-- The order document `createOrder` builds (lines 98-118). -/
def mkOrderDoc (req : CreateOrderReq) (its : List OrderItem) (subtotal : ℚ)
    (tableDbId : Option Nat) (freshOrderId : Nat) : Order :=
  { id := freshOrderId
    user := req.userId
    items := its
    tableId := tableDbId
    subtotal := subtotal
    deliveryFee := if req.orderType = "Delivery" then 2 else 0
    total := subtotal + (if req.orderType = "Delivery" then 2 else 0)
    orderType := req.orderType
    status := "pending"
    paymentStatus := "pending"
    paymentId := none }

/-- The order-to-session attach step of `createOrder` (lines 129-130):
`session.orders.push(order._id)` — a plain append of the order id. -/
def attachOrderToSession (s : TableSession) (oid : Nat) : TableSession :=
  { s with orders := s.orders ++ [oid] }

/-- Result of `createOrder`: HTTP status plus the order the 201 response
returns. -/
structure CreateResult where
  status : Nat
  order : Option Order
deriving DecidableEq, Repr

/-- `createOrder` (order.controller.js lines 28-177).  Validation in the
source's order: items and orderType present, Dine-In needs a table or
device, a named user must exist, every line item must resolve to an
available menu item; then the order document is saved (Mongoose enum
validation of orderType answers 400 through the ValidationError branch);
only afterwards a named session is looked up — a missing session answers
404 with the order already persisted — and the order id is pushed onto
the session's list. -/
def createOrder (db : DB) (req : CreateOrderReq) (freshOrderId : Nat) :
    CreateResult × DB :=
  if req.items.isEmpty || req.orderType = "" then (⟨400, none⟩, db)
  else if req.orderType = "Dine In" && req.tableId.isNone && req.deviceId.isNone then
    (⟨400, none⟩, db)
  else if (match req.userId with
           | some u => !(db.users.contains u)
           | none => false) then (⟨404, none⟩, db)
  else
    match buildItems db req.items with
    | .error e => (⟨e, none⟩, db)
    | .ok (its, subtotal) =>
      if req.orderType ∉ orderTypeEnum then (⟨400, none⟩, db)
      else
        let o := mkOrderDoc req its subtotal (lookupTableDbId db req.tableId) freshOrderId
        let db1 := { db with orders := db.orders ++ [o] }
        match req.sessionId with
        | none => (⟨201, some o⟩, db1)
        | some sid =>
          match db1.findSession sid with
          | none => (⟨404, none⟩, db1)
          | some s =>
            let s' := attachOrderToSession s freshOrderId
            (⟨201, some o⟩, { db1 with sessions := saveDoc TableSession.id s' db1.sessions })

/-- Result of `updateOrderStatus`: the HTTP status of the response. -/
structure OrdResult where
  status : Nat
deriving DecidableEq, Repr

/-- The cache-invalidation block of `updateOrderStatus`
(order.controller.js lines 263-309): drop the order-details key, the
user-orders key when the order names a user, the session-orders key when
a session holds the order, then the kitchen aggregates — both on an
active/completed boundary crossing, otherwise only the side both
statuses are on. -/
def orderStatusCacheDrop (db : DB) (orderId : Nat) (order : Order)
    (status : String) : List Effect :=
  [Effect.invalidate (CacheKey.orderDetails orderId)]
  ++ (match order.user with
      | some u => [Effect.invalidate (CacheKey.userOrders u)]
      | none => [])
  ++ (match db.sessions.find? (fun s => s.orders.contains orderId) with
      | some s => [Effect.invalidate (CacheKey.sessionOrders s.id)]
      | none => [])
  ++ (if (order.status ∈ activeStatuses ∧ status ∈ completedStatuses)
        ∨ (order.status ∈ completedStatuses ∧ status ∈ activeStatuses) then
        [Effect.invalidate CacheKey.kitchenActive,
         Effect.invalidate CacheKey.kitchenCompleted]
      else if order.status ∈ activeStatuses ∧ status ∈ activeStatuses then
        [Effect.invalidate CacheKey.kitchenActive]
      else if order.status ∈ completedStatuses ∧ status ∈ completedStatuses then
        [Effect.invalidate CacheKey.kitchenCompleted]
      else [])

/-- `updateOrderStatus` (order.controller.js lines 220-321).  Empty status
is 400; a missing order is 404; a status equal to the current one is a
200 no-op with no write, no notification and no invalidation; otherwise
the order is saved with the new status (a status outside the schema enum
fails validation, surfacing as 500), then — in this order — the kitchen
is notified when either status is kitchen-relevant, and the cache keys
are dropped when redis is connected. -/
def updateOrderStatus (env : Env) (db : DB) (orderId : Nat) (status : String) :
    OrdResult × DB × List Effect :=
  if status = "" then (⟨400⟩, db, [])
  else
    match db.findOrder orderId with
    | none => (⟨404⟩, db, [])
    | some order =>
      if order.status = status then (⟨200⟩, db, [])
      else if status ∉ orderStatusEnum then (⟨500⟩, db, [])
      else
        let order' := { order with status := status }
        let db1 := { db with orders := saveDoc Order.id order' db.orders }
        let notifyEffects :=
          if env.ioAvailable
              && (kitchenRelevantStatuses.contains order.status
                  || kitchenRelevantStatuses.contains status) then
            notifyKitchenAboutOrderUpdate env
          else []
        let cacheEffects :=
          if env.redisConnected then orderStatusCacheDrop db orderId order status
          else []
        (⟨200⟩, db1, Effect.commit orderId :: (notifyEffects ++ cacheEffects))

/-- Result of `updatePaymentStatus`: HTTP status plus the
`sessionUpdated` flag of the response body. -/
structure PayResult where
  status : Nat
  sessionUpdated : Bool
deriving DecidableEq, Repr

/-- `Order.countDocuments({_id ∈ sessionOrders, paymentStatus ≠ paid})`
(order.controller.js lines 565-568). -/
def unpaidCount (orders : List Order) (sessionOrders : List Nat) : Nat :=
  (orders.filter (fun o => sessionOrders.contains o.id && o.paymentStatus != "paid")).length

/-- `updatePaymentStatus` (order.controller.js lines 539-622).  Sets the
order's payment fields and saves; then, when a session holds the order
and is `payment_pending` and no attached order is left unpaid, cascades:
session → closed with endTime, its table → cleaning with the session
reference cleared. -/
def updatePaymentStatus (db : DB) (orderId : Nat) (paymentStatus : String)
    (paymentId : Option String) (now : Nat) : PayResult × DB :=
  if paymentStatus = "" then (⟨400, false⟩, db)
  else
    match db.findOrder orderId with
    | none => (⟨404, false⟩, db)
    | some order =>
      if paymentStatus ∉ paymentStatusEnum then (⟨500, false⟩, db)
      else
        let order' := { order with
          paymentStatus := paymentStatus
          paymentId := match paymentId with
            | some p => some p
            | none => order.paymentId }
        let db1 := { db with orders := saveDoc Order.id order' db.orders }
        match db1.sessions.find? (fun s => s.orders.contains orderId) with
        | none => (⟨200, false⟩, db1)
        | some session =>
          if session.status = "payment_pending" then
            if unpaidCount db1.orders session.orders = 0 then
              let s' := { session with status := "closed", endTime := some now }
              let db2 := { db1 with sessions := saveDoc TableSession.id s' db1.sessions }
              let db3 :=
                match db2.findTable session.tableId with
                | some table =>
                  let table' := { table with status := "cleaning", currentSession := none }
                  { db2 with tables := saveDoc Table.id table' db2.tables }
                | none => db2
              (⟨200, true⟩, db3)
            else (⟨200, false⟩, db1)
          else (⟨200, false⟩, db1)

/-- Result of the table-affecting HTTP handlers that return no entity a
claim reads: just the HTTP status. -/
structure TableResult where
  status : Nat
deriving DecidableEq, Repr

/-- Result of `startTableSession`: HTTP status plus the new session id
the 201 response carries. -/
structure StartResult where
  status : Nat
  sessionId : Option Nat
deriving DecidableEq, Repr

/-- `startTableSession` (table.controller.js lines 215-259).  404 when
the table is unknown, 400 when it is inactive or not available; on
success a session is created (status `active` per the spec's schema
default), the table becomes `occupied` and points at it. -/
def startTableSession (db : DB) (tableDbId : Nat) (freshSessionId : Nat)
    (now : Nat) : StartResult × DB :=
  match db.findTable tableDbId with
  | none => (⟨404, none⟩, db)
  | some table =>
    if !table.isActive then (⟨400, none⟩, db)
    else if table.status ≠ "available" then (⟨400, none⟩, db)
    else
      let session : TableSession :=
        { id := freshSessionId, tableId := tableDbId, clientId := none,
          status := "active", startTime := now, endTime := none, orders := [] }
      let db1 := { db with sessions := db.sessions ++ [session] }
      let table' := { table with status := "occupied", currentSession := some freshSessionId }
      (⟨201, some freshSessionId⟩, { db1 with tables := saveDoc Table.id table' db1.tables })

/-- `endTableSession` (table.controller.js lines 262-302).  404 when the
session is unknown, 400 unless it is `active`; on success the session
becomes `completed` with an end time and its table, when found, becomes
`cleaning` with the session reference cleared. -/
def endTableSession (db : DB) (sessionId : Nat) (now : Nat) : TableResult × DB :=
  match db.findSession sessionId with
  | none => (⟨404⟩, db)
  | some session =>
    if session.status ≠ "active" then (⟨400⟩, db)
    else
      let s' := { session with status := "completed", endTime := some now }
      let db1 := { db with sessions := saveDoc TableSession.id s' db.sessions }
      match db1.findTable session.tableId with
      | some table =>
        let table' := { table with status := "cleaning", currentSession := none }
        (⟨200⟩, { db1 with tables := saveDoc Table.id table' db1.tables })
      | none => (⟨200⟩, db1)

/-- `updateTableStatus` (table.controller.js lines 109-149).  When the
table holds a session and the new status is `available`, the session is
force-completed and detached first; then the table's status is set and
saved (the spec-modelled schema enum rejects other strings, surfacing
as 500 before anything is persisted — only the `available` branch can
touch the session, and `available` is in the enum). -/
def updateTableStatus (db : DB) (tableDbId : Nat) (status : String)
    (now : Nat) : TableResult × DB :=
  if status = "" then (⟨400⟩, db)
  else
    match db.findTable tableDbId with
    | none => (⟨404⟩, db)
    | some table =>
      if status ∉ tableStatusEnum then (⟨500⟩, db)
      else
        match table.currentSession with
        | some sid =>
          if status = "available" then
            let db1 :=
              match db.findSession sid with
              | some s =>
                let s' := { s with status := "completed", endTime := some now }
                { db with sessions := saveDoc TableSession.id s' db.sessions }
              | none => db
            let table' := { table with status := status, currentSession := none }
            (⟨200⟩, { db1 with tables := saveDoc Table.id table' db1.tables })
          else
            let table' := { table with status := status }
            (⟨200⟩, { db with tables := saveDoc Table.id table' db.tables })
        | none =>
          let table' := { table with status := status }
          (⟨200⟩, { db with tables := saveDoc Table.id table' db.tables })

/-- Reply of the `initiate_session` socket handler: either an `error`
event — carrying the conflicting session id when the client already has
an active session — or the `session_created` event. -/
inductive SocketReply where
  | err (msg : String) (conflictSessionId : Option Nat)
  | sessionCreated (sessionId : Nat)
deriving DecidableEq, Repr

/-- The `initiate_session` socket handler (socket file lines 110-195).
All failures are `error` events, not HTTP statuses; the
already-active-session conflict carries the existing session's id; on
success a session is created and the table becomes occupied. -/
def initiateSession (db : DB) (tableCode : String) (userId : Nat)
    (freshSessionId : Nat) (now : Nat) : SocketReply × DB :=
  match db.tables.find? (fun t => t.tableId == tableCode) with
  | none => (.err "Table not found" none, db)
  | some table =>
    if !table.isActive then (.err "Table is not active" none, db)
    else if table.status ≠ "available" then (.err "Table is not available" none, db)
    else if !(db.users.contains userId) then (.err "User not found" none, db)
    else
      match db.sessions.find? (fun s => s.clientId == some userId && s.status == "active") with
      | some existing =>
        (.err "You already have an active session at another table" (some existing.id), db)
      | none =>
        let session : TableSession :=
          { id := freshSessionId, tableId := table.id, clientId := some userId,
            status := "active", startTime := now, endTime := none, orders := [] }
        let db1 := { db with sessions := db.sessions ++ [session] }
        let table' := { table with status := "occupied", currentSession := some freshSessionId }
        (.sessionCreated freshSessionId, { db1 with tables := saveDoc Table.id table' db1.tables })

/-- `updateBillPaymentStatus` (bill.controller.js lines 74-127).  Saves
the bill's payment fields; on `paid`, when the bill's session is not yet
closed, cascades the session to closed and its table to cleaning with
the session reference cleared — the same cascade rule as the
payment-status path. -/
def updateBillPaymentStatus (db : DB) (billId : Nat) (paymentStatus : String)
    (paymentMethod : Option String) (processedBy : Option Nat) (now : Nat) :
    TableResult × DB :=
  if paymentStatus = "" then (⟨400⟩, db)
  else
    match db.bills.find? (fun b => b.id == billId) with
    | none => (⟨404⟩, db)
    | some bill =>
      if paymentStatus ∉ paymentStatusEnum then (⟨500⟩, db)
      else
        let bill' := { bill with
          paymentStatus := paymentStatus
          paymentMethod := match paymentMethod with
            | some m => some m
            | none => bill.paymentMethod
          processedBy := processedBy }
        let db1 := { db with bills := saveDoc Bill.id bill' db.bills }
        if paymentStatus = "paid" then
          match db1.findSession bill.tableSessionId with
          | some session =>
            if session.status ≠ "closed" then
              let s' := { session with status := "closed", endTime := some now }
              let db2 := { db1 with sessions := saveDoc TableSession.id s' db1.sessions }
              match db2.findTable session.tableId with
              | some table =>
                let table' := { table with status := "cleaning", currentSession := none }
                (⟨200⟩, { db2 with tables := saveDoc Table.id table' db2.tables })
              | none => (⟨200⟩, db2)
            else (⟨200⟩, db1)
          | none => (⟨200⟩, db1)
        else (⟨200⟩, db1)

/-- Result of the two bill-generation handlers: HTTP status plus the
bill id the response carries (none when no bill is in the payload). -/
structure BillResult where
  status : Nat
  billId : Option Nat
deriving DecidableEq, Repr

/-- `Order.find({_id ∈ sessionOrders})` summed over `total`
(bill.controller.js lines 149-152). -/
def sessionOrdersTotal (db : DB) (sessionOrders : List Nat) : ℚ :=
  ((db.orders.filter (fun o => sessionOrders.contains o.id)).map Order.total).sum

/-- `generateBillForSession` (bill.controller.js lines 130-178).  A
session that already has a bill answers 400 carrying the existing bill's
id and changes nothing; otherwise a bill is created over the session
orders' totals and the session becomes `payment_pending`. -/
def generateBillForSession (db : DB) (sessionId : Nat) (freshBillId : Nat) :
    BillResult × DB :=
  match db.bills.find? (fun b => b.tableSessionId == sessionId) with
  | some existingBill => (⟨400, some existingBill.id⟩, db)
  | none =>
    match db.findSession sessionId with
    | none => (⟨404, none⟩, db)
    | some session =>
      let bill : Bill :=
        { id := freshBillId, tableSessionId := sessionId,
          total := sessionOrdersTotal db session.orders,
          paymentStatus := "pending", paymentMethod := none, processedBy := none }
      let db1 := { db with bills := db.bills ++ [bill] }
      let s' := { session with status := "payment_pending" }
      (⟨201, some freshBillId⟩, { db1 with sessions := saveDoc TableSession.id s' db1.sessions })

/-- `endSessionAndGenerateBill` (bill.controller.js lines 181-229).  404
for an unknown session, 400 with no bill id when the session is already
closed; otherwise the existing bill is reused (or one is created) and
the session becomes `payment_pending`. -/
def endSessionAndGenerateBill (db : DB) (sessionId : Nat) (freshBillId : Nat) :
    BillResult × DB :=
  match db.findSession sessionId with
  | none => (⟨404, none⟩, db)
  | some session =>
    if session.status = "closed" then (⟨400, none⟩, db)
    else
      let billAndDb :=
        match db.bills.find? (fun b => b.tableSessionId == sessionId) with
        | some b => (b, db)
        | none =>
          let b : Bill :=
            { id := freshBillId, tableSessionId := sessionId,
              total := sessionOrdersTotal db session.orders,
              paymentStatus := "pending", paymentMethod := none, processedBy := none }
          (b, { db with bills := db.bills ++ [b] })
      let s' := { session with status := "payment_pending" }
      (⟨200, some billAndDb.1.id⟩,
       { billAndDb.2 with sessions := saveDoc TableSession.id s' billAndDb.2.sessions })

/-! ## Helper lemmas about the store -/

theorem mem_saveDoc {α : Type} {key : α → Nat} {d : α} {l : List α} {x : α}
    (h : x ∈ saveDoc key d l) : x = d ∨ (x ∈ l ∧ key x ≠ key d) := by
  induction l with
  | nil => simp [saveDoc] at h
  | cons a t ih =>
    simp only [saveDoc, List.map_cons, List.mem_cons] at h
    rcases h with h | h
    · by_cases hk : key a = key d
      · simp [hk] at h
        exact Or.inl h
      · simp [hk] at h
        subst h
        exact Or.inr ⟨List.mem_cons_self x t, hk⟩
    · rcases ih h with h' | ⟨hm, hk⟩
      · exact Or.inl h'
      · exact Or.inr ⟨List.mem_cons_of_mem a hm, hk⟩

theorem mem_saveDoc_of_mem {α : Type} {key : α → Nat} {d : α} {l : List α} {x : α}
    (h : x ∈ l) (hk : key x ≠ key d) : x ∈ saveDoc key d l := by
  have : x = (fun y => if key y = key d then d else y) x := by simp [hk]
  rw [this]
  exact List.mem_map_of_mem _ h

theorem find?_saveDoc_self {α : Type} {key : α → Nat} {d : α} {l : List α} {i : Nat}
    (hd : key d = i) (hex : ∃ x ∈ l, key x = i) :
    (saveDoc key d l).find? (fun x => key x == i) = some d := by
  induction l with
  | nil => simp at hex
  | cons a t ih =>
    simp only [saveDoc, List.map_cons]
    by_cases hk : key a = key d
    · simp [List.find?_cons, hd, hk]
    · have ha : (key a == i) = false := by
        simp only [beq_eq_false_iff_ne, ne_eq]
        intro hc
        exact hk (hc.trans hd.symm)
      simp only [List.find?_cons, if_neg hk, ha]
      apply ih
      rcases hex with ⟨x, hx, hxi⟩
      rcases List.mem_cons.mp hx with rfl | hxt
      · exact absurd hxi (by simpa [beq_eq_false_iff_ne] using ha)
      · exact ⟨x, hxt, hxi⟩

/-! ## Claim theorems -/

/-- Counterexample to C8: attaching an order id that the session already
holds does not leave exactly one occurrence — after a repeated attach of
id 5 the list holds it twice, and attaching twice differs from attaching
once, so the attach step is not append-if-absent. -/
theorem attach_not_idempotent_counterexample :
    (attachOrderToSession (attachOrderToSession
        ⟨1, 1, none, "active", 0, none, []⟩ 5) 5).orders.count 5 = 2 ∧
    attachOrderToSession (attachOrderToSession
        ⟨1, 1, none, "active", 0, none, []⟩ 5) 5 ≠
      attachOrderToSession ⟨1, 1, none, "active", 0, none, []⟩ 5 := by
  constructor
  · decide
  · decide

/-- Claim C8 amended: the order-to-session attach step of `createOrder`
is a plain append keyed by nothing: every attach adds one more occurrence
of the order id to the session's list, so a retried attach duplicates the
id rather than being absorbed. -/
theorem attach_appends_always (s : TableSession) (oid : Nat) :
    (attachOrderToSession s oid).orders.count oid = s.orders.count oid + 1 ∧
    (attachOrderToSession s oid).orders = s.orders ++ [oid] := by
  refine ⟨?_, rfl⟩
  simp [attachOrderToSession]

/-- Claim C10: when every validation up to the save passes but the named
session does not exist, `createOrder` answers 404 with no order in the
payload, yet the newly built order document is already appended to the
store and the sessions are untouched — the error path is not atomic. -/
theorem createOrder_nonatomic_on_missing_session
    (db : DB) (req : CreateOrderReq) (fid : Nat) (sid : Nat)
    (its : List OrderItem) (sub : ℚ)
    (h1 : req.items.isEmpty = false)
    (h2 : req.orderType ∈ orderTypeEnum)
    (h3 : (req.orderType = "Dine In" && req.tableId.isNone && req.deviceId.isNone) = false)
    (h4 : ∀ u, req.userId = some u → db.users.contains u = true)
    (h5 : buildItems db req.items = .ok (its, sub))
    (h6 : req.sessionId = some sid)
    (h7 : db.findSession sid = none) :
    createOrder db req fid =
      (⟨404, none⟩,
       { db with orders :=
           db.orders ++ [mkOrderDoc req its sub (lookupTableDbId db req.tableId) fid] }) := by
  have hne : req.orderType ≠ "" := by
    intro he
    rw [he] at h2
    simp [orderTypeEnum] at h2
  have huser : (match req.userId with
      | some u => !(db.users.contains u)
      | none => false) = false := by
    cases hu : req.userId with
    | none => rfl
    | some u => simp only [h4 u hu, Bool.not_true]
  simp only [DB.findSession] at h7
  simp [createOrder, h1, hne, h3, huser, h5, h2, h6, DB.findSession, h7]
  intro hcontr
  exfalso
  cases hu : req.userId with
  | none => rw [hu] at hcontr; simp at hcontr
  | some u =>
    rw [hu] at hcontr
    have h4' := h4 u hu
    simp at h4' hcontr
    exact hcontr h4'

/-- The item loop of `createOrder` snapshots the menu price into each
line, computes line totals as price times quantity, and returns their
sum as the subtotal. -/
theorem buildItems_spec (db : DB) :
    ∀ rs its sub, buildItems db rs = .ok (its, sub) →
      sub = (its.map OrderItem.total).sum ∧
      ∀ it ∈ its, it.total = it.price * (it.quantity : ℚ) ∧
        ∃ m, db.menuItems.find? (fun x => x.id == it.menuItem) = some m ∧
          m.isAvailable = true ∧ it.price = m.price := by
  intro rs
  induction rs with
  | nil =>
    intro its sub h
    simp only [buildItems, Except.ok.injEq, Prod.mk.injEq] at h
    obtain ⟨rfl, rfl⟩ := h
    simp
  | cons r rest ih =>
    intro its sub h
    simp only [buildItems] at h
    split at h
    · exact absurd h (by simp)
    split at h
    · exact absurd h (by simp)
    rename_i m hm
    split at h
    · exact absurd h (by simp)
    rename_i hav
    split at h
    · exact absurd h (by simp)
    rename_i its' sub' hb
    simp only [Except.ok.injEq, Prod.mk.injEq] at h
    obtain ⟨rfl, rfl⟩ := h
    obtain ⟨hsum, hall⟩ := ih its' sub' hb
    constructor
    · simp [hsum]
    · intro it hit
      rcases List.mem_cons.mp hit with rfl | hmem
      · refine ⟨rfl, m, hm, ?_, rfl⟩
        simpa using hav
      · exact hall it hmem

/-- Claim C4: every order `createOrder` answers 201 with carries line
totals equal to the snapshotted menu unit price times the quantity, a
subtotal equal to the sum of the line totals, a delivery fee of 2 for
Delivery orders and 0 otherwise, and a total equal to subtotal plus
delivery fee. -/
theorem createOrder_money (db : DB) (req : CreateOrderReq) (fid : Nat) (o : Order)
    (ho : (createOrder db req fid).1.order = some o) :
    (∀ it ∈ o.items, it.total = it.price * (it.quantity : ℚ) ∧
       ∃ m, db.menuItems.find? (fun x => x.id == it.menuItem) = some m ∧
         m.isAvailable = true ∧ it.price = m.price) ∧
    o.subtotal = (o.items.map OrderItem.total).sum ∧
    o.deliveryFee = (if req.orderType = "Delivery" then (2 : ℚ) else 0) ∧
    o.total = o.subtotal + o.deliveryFee := by
  simp only [createOrder] at ho
  split at ho
  · simp at ho
  split at ho
  · simp at ho
  split at ho
  · simp at ho
  split at ho
  · simp at ho
  rename_i its sub hb
  split at ho
  · simp at ho
  obtain ⟨hsum, hall⟩ := buildItems_spec db req.items its sub hb
  split at ho
  · simp only [Option.some.injEq] at ho
    subst ho
    exact ⟨hall, hsum, rfl, rfl⟩
  split at ho
  · simp at ho
  simp only [Option.some.injEq] at ho
  subst ho
  exact ⟨hall, hsum, rfl, rfl⟩

/-- Fixture menu: two available items priced 5 and 3.5, matching the
spec's worked scenario. -/
def menuFix : List MenuItem :=
  [⟨1, "Burger", 5, true⟩, ⟨2, "Lemonade", 7/2, true⟩]

/-- Fixture store with the menu above, one user and nothing else. -/
def dbFix : DB :=
  { users := [40], menuItems := menuFix, orders := [], sessions := [],
    tables := [], bills := [] }

/-- Fixture request: two units of item 1 and one of item 2, Take Away. -/
def reqFix : CreateOrderReq :=
  { userId := none, items := [⟨1, 2, none⟩, ⟨2, 1, none⟩], sessionId := none,
    tableId := none, orderType := "Take Away", deviceId := none }

/-- The order `createOrder` builds from `reqFix` over `dbFix`. -/
def orderFix : Order :=
  mkOrderDoc reqFix [⟨1, "Burger", 5, 2, 10, ""⟩, ⟨2, "Lemonade", 7/2, 1, 7/2, ""⟩]
    (27/2) none 10

/-- Witness for C4: the monetary invariant evaluated on the concrete
two-line order of the spec's scenario (subtotal 13.5, fee 0). -/
theorem createOrder_money_witness :
    (∀ it ∈ orderFix.items, it.total = it.price * (it.quantity : ℚ) ∧
       ∃ m, dbFix.menuItems.find? (fun x => x.id == it.menuItem) = some m ∧
         m.isAvailable = true ∧ it.price = m.price) ∧
    orderFix.subtotal = (orderFix.items.map OrderItem.total).sum ∧
    orderFix.deliveryFee = (if reqFix.orderType = "Delivery" then (2 : ℚ) else 0) ∧
    orderFix.total = orderFix.subtotal + orderFix.deliveryFee :=
  createOrder_money dbFix reqFix 10 orderFix (by
    simp [createOrder, buildItems, dbFix, reqFix, menuFix, mkOrderDoc,
      orderFix, lookupTableDbId, orderTypeEnum]
    norm_num)

/-- Fixture request naming session 7, which `dbFix` does not hold. -/
def reqSessFix : CreateOrderReq :=
  { userId := none, items := [⟨1, 1, none⟩], sessionId := some 7,
    tableId := none, orderType := "Take Away", deviceId := none }

/-- Witness for C10: the concrete request naming the absent session 7 is
answered 404 while its order document 11 is already in the store. -/
theorem createOrder_nonatomic_witness :
    createOrder dbFix reqSessFix 11 =
      (⟨404, none⟩,
       { dbFix with orders :=
           dbFix.orders ++ [mkOrderDoc reqSessFix [⟨1, "Burger", 5, 1, 5, ""⟩] 5
             (lookupTableDbId dbFix reqSessFix.tableId) 11] }) :=
  createOrder_nonatomic_on_missing_session dbFix reqSessFix 11 7
    [⟨1, "Burger", 5, 1, 5, ""⟩] 5 (by decide) (by decide) (by decide)
    (fun u hu => by simp [reqSessFix] at hu)
    (by norm_num [buildItems, dbFix, reqSessFix, menuFix]) rfl rfl

/-- Claim C1: for a session in `payment_pending` holding an order, marking
that order paid when every other attached order is already paid closes
the session with an end time and turns its table to cleaning with the
session reference cleared; marking it paid while some other attached
order is still unpaid leaves the sessions and tables untouched. -/
theorem updatePaymentStatus_cascade (db : DB) (oid : Nat) (now : Nat)
    (s : TableSession) (t : Table) (order : Order)
    (hfind : db.findOrder oid = some order)
    (hsess : db.sessions.find? (fun x => x.orders.contains oid) = some s)
    (hpp : s.status = "payment_pending")
    (htab : db.findTable s.tableId = some t) :
    ((∀ o ∈ db.orders, o.id ∈ s.orders → o.id ≠ oid → o.paymentStatus = "paid") →
      (updatePaymentStatus db oid "paid" none now).1 = ⟨200, true⟩ ∧
      (updatePaymentStatus db oid "paid" none now).2.findSession s.id =
        some { s with status := "closed", endTime := some now } ∧
      (updatePaymentStatus db oid "paid" none now).2.findTable t.id =
        some { t with status := "cleaning", currentSession := none }) ∧
    ((∃ o ∈ db.orders, o.id ∈ s.orders ∧ o.id ≠ oid ∧ o.paymentStatus ≠ "paid") →
      (updatePaymentStatus db oid "paid" none now).1 = ⟨200, false⟩ ∧
      (updatePaymentStatus db oid "paid" none now).2.sessions = db.sessions ∧
      (updatePaymentStatus db oid "paid" none now).2.tables = db.tables) := by
  have hfindL : List.find? (fun o => o.id == oid) db.orders = some order := hfind
  have htabL : List.find? (fun x => x.id == s.tableId) db.tables = some t := htab
  have hid : order.id = oid := by simpa using List.find?_some hfindL
  have hmemS : s ∈ db.sessions := List.mem_of_find?_eq_some hsess
  have hmemT : t ∈ db.tables := List.mem_of_find?_eq_some htabL
  have hsessL : List.find? (fun x => decide (oid ∈ x.orders)) db.sessions = some s := by
    simpa using hsess
  constructor
  · intro hA
    have hz : unpaidCount
        (saveDoc Order.id ({ order with paymentStatus := "paid" }) db.orders)
        s.orders = 0 := by
      unfold unpaidCount
      rw [List.length_eq_zero, List.filter_eq_nil_iff]
      intro x hx
      rcases mem_saveDoc hx with rfl | ⟨hm, hk⟩
      · simp
      · simp only [Bool.and_eq_true, bne_iff_ne, ne_eq, not_and, Decidable.not_not]
        intro hco
        have hxmem : x.id ∈ s.orders := by simpa using hco
        have hne : x.id ≠ oid := by
          intro he
          exact hk (by simp [he, hid])
        exact hA x hm hxmem hne
    have hrun : updatePaymentStatus db oid "paid" none now =
        (⟨200, true⟩,
         { db with
             orders := saveDoc Order.id ({ order with paymentStatus := "paid" }) db.orders
             sessions := saveDoc TableSession.id
               ({ s with status := "closed", endTime := some now }) db.sessions
             tables := saveDoc Table.id
               ({ t with status := "cleaning", currentSession := none }) db.tables }) := by
      simp [updatePaymentStatus, DB.findOrder, DB.findSession, DB.findTable,
        hfindL, hsessL, hpp, hz, htabL, paymentStatusEnum]
    refine ⟨by rw [hrun], ?_, ?_⟩
    · rw [hrun]
      exact find?_saveDoc_self rfl ⟨s, hmemS, rfl⟩
    · rw [hrun]
      exact find?_saveDoc_self rfl ⟨t, hmemT, rfl⟩
  · intro hB
    obtain ⟨x, hxm, hxin, hxne, hxunpaid⟩ := hB
    have hnz : unpaidCount
        (saveDoc Order.id ({ order with paymentStatus := "paid" }) db.orders)
        s.orders ≠ 0 := by
      unfold unpaidCount
      intro hlen
      rw [List.length_eq_zero] at hlen
      have hxmem' : x ∈ saveDoc Order.id ({ order with paymentStatus := "paid" }) db.orders :=
        mem_saveDoc_of_mem hxm (by simpa [hid] using hxne)
      have : x ∈ List.filter
          (fun o => s.orders.contains o.id && o.paymentStatus != "paid")
          (saveDoc Order.id ({ order with paymentStatus := "paid" }) db.orders) := by
        rw [List.mem_filter]
        refine ⟨hxmem', ?_⟩
        simp [hxin, hxunpaid]
      rw [hlen] at this
      simp at this
    have hrun : updatePaymentStatus db oid "paid" none now =
        (⟨200, false⟩,
         { db with
             orders := saveDoc Order.id ({ order with paymentStatus := "paid" }) db.orders }) := by
      simp [updatePaymentStatus, DB.findOrder, DB.findSession,
        hfindL, hsessL, hpp, hnz, paymentStatusEnum]
    exact ⟨by rw [hrun], by rw [hrun], by rw [hrun]⟩

/-- The table state invariant of the spec: the current-session reference
is non-null exactly when the table is occupied. -/
def tableOk (t : Table) : Prop :=
  t.currentSession ≠ none ↔ t.status = "occupied"

instance (t : Table) : Decidable (tableOk t) := by
  unfold tableOk
  infer_instance

/-- The invariant over every table of the store. -/
def TableInv (db : DB) : Prop := ∀ t ∈ db.tables, tableOk t

instance (db : DB) : Decidable (TableInv db) := by
  unfold TableInv
  exact List.decidableBAll _ _

/-- Replacing a table document preserves the invariant when the new
document satisfies it. -/
theorem tableOk_saveDoc {l : List Table} {d : Table}
    (h : ∀ x ∈ l, tableOk x) (hd : tableOk d) :
    ∀ x ∈ saveDoc Table.id d l, tableOk x := by
  intro x hx
  rcases mem_saveDoc hx with rfl | ⟨hm, _⟩
  · exact hd
  · exact h x hm

/-- Fixture: an occupied table pointing at session 1, satisfying the
invariant. -/
def dbOccupied : DB :=
  { users := [], menuItems := [], orders := [],
    sessions := [⟨1, 1, none, "active", 0, none, []⟩],
    tables := [⟨1, "T1", "occupied", true, some 1⟩], bills := [] }

/-- Counterexample to C2: the invariant holds on `dbOccupied`, yet after
`updateTableStatus` to `cleaning` — one of the claim's table-affecting
operations — the table reads `cleaning` while still pointing at session
1, so the claimed invariant is violated. -/
theorem tableInv_counterexample :
    TableInv dbOccupied ∧ ¬ TableInv (updateTableStatus dbOccupied 1 "cleaning" 0).2 := by
  constructor
  · decide
  · decide

/-- Claim C2 amended: the invariant is preserved by session start (HTTP
and socket paths), session end, `updateTableStatus` to `available`, and
both payment cascades; `updateTableStatus` to another status (e.g.
`cleaning` on an occupied table, or `occupied` directly) does not
preserve it, as the counterexample shows. -/
theorem tableInv_preserved (db : DB) (hInv : TableInv db) :
    (∀ tid sid now, TableInv (startTableSession db tid sid now).2) ∧
    (∀ sid now, TableInv (endTableSession db sid now).2) ∧
    (∀ tid now, TableInv (updateTableStatus db tid "available" now).2) ∧
    (∀ oid ps pid now, TableInv (updatePaymentStatus db oid ps pid now).2) ∧
    (∀ bid ps pm pb now, TableInv (updateBillPaymentStatus db bid ps pm pb now).2) ∧
    (∀ code uid sid now, TableInv (initiateSession db code uid sid now).2) := by
  refine ⟨?_, ?_, ?_, ?_, ?_, ?_⟩
  · intro tid sid now
    unfold startTableSession
    dsimp only
    repeat' split
    all_goals
      first
        | exact hInv
        | (intro x hx
           rcases mem_saveDoc hx with rfl | ⟨hm, _⟩
           · simp_all [tableOk]
           · exact hInv x hm)
  · intro sid now
    unfold endTableSession
    dsimp only
    repeat' split
    all_goals
      first
        | exact hInv
        | (intro x hx
           rcases mem_saveDoc hx with rfl | ⟨hm, _⟩
           · simp_all [tableOk]
           · exact hInv x hm)
  · intro tid now
    unfold updateTableStatus
    dsimp only
    repeat' split
    all_goals
      first
        | exact hInv
        | (intro x hx
           rcases mem_saveDoc hx with rfl | ⟨hm, _⟩
           · simp_all [tableOk]
           · exact hInv x hm)
  · intro oid ps pid now
    unfold updatePaymentStatus
    dsimp only
    repeat' split
    all_goals
      first
        | exact hInv
        | (intro x hx
           rcases mem_saveDoc hx with rfl | ⟨hm, _⟩
           · simp_all [tableOk]
           · exact hInv x hm)
  · intro bid ps pm pb now
    unfold updateBillPaymentStatus
    dsimp only
    repeat' split
    all_goals
      first
        | exact hInv
        | (intro x hx
           rcases mem_saveDoc hx with rfl | ⟨hm, _⟩
           · simp_all [tableOk]
           · exact hInv x hm)
  · intro code uid sid now
    unfold initiateSession
    dsimp only
    repeat' split
    all_goals
      first
        | exact hInv
        | (intro x hx
           rcases mem_saveDoc hx with rfl | ⟨hm, _⟩
           · simp_all [tableOk]
           · exact hInv x hm)

/-- Witness for the amended C2: on the concrete occupied store, both a
session end and a full payment cascade leave every table satisfying the
invariant. -/
theorem tableInv_preserved_witness :
    TableInv (endTableSession dbOccupied 1 9).2 ∧
    TableInv (updatePaymentStatus dbOccupied 3 "paid" none 9).2 :=
  ⟨(tableInv_preserved dbOccupied (by decide)).2.1 1 9,
   (tableInv_preserved dbOccupied (by decide)).2.2.2.1 3 "paid" none 9⟩

/-- Fixture: one pending order with id 1 and no user or session. -/
def ordPending : Order :=
  ⟨1, none, [], none, 0, 0, 0, "Dine In", "pending", "pending", none⟩

/-- Fixture store holding only `ordPending`. -/
def dbOrderOne : DB :=
  { users := [], menuItems := [], orders := [ordPending], sessions := [],
    tables := [], bills := [] }

/-- Every schema status is kitchen-relevant in `updateOrderStatus`'s
notification guard. -/
theorem orderStatusEnum_relevant :
    ∀ x ∈ orderStatusEnum, x ∈ kitchenRelevantStatuses := by decide

/-- Unfolding of a successful, status-changing `updateOrderStatus` run:
the commit comes first, then the kitchen notification block, then the
redis cache drops. -/
theorem updateOrderStatus_run (env : Env) (db : DB) (oid : Nat) (s : String)
    (order : Order) (hf : db.findOrder oid = some order)
    (hne : order.status ≠ s) (hs : s ∈ orderStatusEnum) :
    updateOrderStatus env db oid s =
      (⟨200⟩,
       { db with orders := saveDoc Order.id ({ order with status := s }) db.orders },
       Effect.commit oid ::
         ((if env.ioAvailable
               && (kitchenRelevantStatuses.contains order.status
                   || kitchenRelevantStatuses.contains s) then
             notifyKitchenAboutOrderUpdate env
           else [])
          ++ (if env.redisConnected then orderStatusCacheDrop db oid order s
              else []))) := by
  have hsne : s ≠ "" := by
    intro he
    rw [he] at hs
    simp [orderStatusEnum] at hs
  have hne' : ¬ order.status = s := hne
  simp only [updateOrderStatus, hf, if_neg hsne, hne', if_false, hs, if_true]
  simp [hne', hs]

/-- Counterexample to C7: `delivered` is not in the order schema's
status enum, so updating a pending order to `delivered` fails Mongoose
validation (surfacing as 500) and writes nothing — the claimed enumerated
set and its "every transition succeeds" promise do not hold for
`delivered`. -/
theorem orderStatus_counterexample :
    "delivered" ∉ orderStatusEnum ∧
    (updateOrderStatus ⟨true, true, true⟩
        { users := [], menuItems := [],
          orders := [⟨1, none, [], none, 0, 0, 0, "Dine In", "pending", "pending", none⟩],
          sessions := [], tables := [], bills := [] } 1 "delivered").1.status = 500 ∧
    (updateOrderStatus ⟨true, true, true⟩
        { users := [], menuItems := [],
          orders := [⟨1, none, [], none, 0, 0, 0, "Dine In", "pending", "pending", none⟩],
          sessions := [], tables := [], bills := [] } 1 "delivered").2.2 = [] := by
  refine ⟨by decide, rfl, rfl⟩

/-- Claim C7 amended: a request equal to the current status is a 200
no-op with no write and no side effects; a missing order is 404 with no
effects; and every transition between the schema's enumerated statuses
(pending, confirmed, preparing, ready_for_pickup, cancelled — the enum
holds no `delivered`) is permitted and succeeds with the new status
stored. -/
theorem orderStatus_semantics_amended (env : Env) (db : DB) (oid : Nat) (s : String) :
    (∀ order, db.findOrder oid = some order → s ≠ "" → order.status = s →
       updateOrderStatus env db oid s = (⟨200⟩, db, [])) ∧
    (s ≠ "" → db.findOrder oid = none →
       updateOrderStatus env db oid s = (⟨404⟩, db, [])) ∧
    (∀ order, db.findOrder oid = some order → s ∈ orderStatusEnum →
       order.status ≠ s →
       (updateOrderStatus env db oid s).1 = ⟨200⟩ ∧
       (updateOrderStatus env db oid s).2.1.findOrder oid =
         some { order with status := s }) := by
  refine ⟨?_, ?_, ?_⟩
  · intro order hfind hne hsame
    simp [updateOrderStatus, hfind, hne, hsame]
  · intro hne hfind
    simp [updateOrderStatus, hfind, hne]
  · intro order hfind hs hne
    have hid : order.id = oid := by
      simpa using List.find?_some (hfind : db.orders.find? (fun o => o.id == oid) = some order)
    have hmem : order ∈ db.orders :=
      List.mem_of_find?_eq_some (hfind : db.orders.find? (fun o => o.id == oid) = some order)
    rw [updateOrderStatus_run env db oid s order hfind hne hs]
    refine ⟨rfl, ?_⟩
    exact find?_saveDoc_self hid ⟨order, hmem, hid⟩

/-- Witness for the amended C7: on a one-order store, the no-op, the
missing-order 404 and a pending → confirmed transition all behave as the
theorem states. -/
theorem orderStatus_semantics_witness :
    updateOrderStatus ⟨true, true, true⟩ dbOrderOne 1 "pending" = (⟨200⟩, dbOrderOne, []) ∧
    updateOrderStatus ⟨true, true, true⟩ dbOrderOne 99 "confirmed" = (⟨404⟩, dbOrderOne, []) ∧
    (updateOrderStatus ⟨true, true, true⟩ dbOrderOne 1 "confirmed").1 = ⟨200⟩ ∧
    (updateOrderStatus ⟨true, true, true⟩ dbOrderOne 1 "confirmed").2.1.findOrder 1 =
      some { ordPending with status := "confirmed" } :=
  ⟨(orderStatus_semantics_amended ⟨true, true, true⟩ dbOrderOne 1 "pending").1
      ordPending rfl (by decide) rfl,
   (orderStatus_semantics_amended ⟨true, true, true⟩ dbOrderOne 99 "confirmed").2.1
      (by decide) rfl,
   (orderStatus_semantics_amended ⟨true, true, true⟩ dbOrderOne 1 "confirmed").2.2
      ordPending rfl (by decide) (by decide)⟩

/-- Counterexample to C9: on a concrete successful status change with
redis connected and a kitchen registered, the handler emits the
notification and then performs all cache drops: the trace holds a
notification and invalidations, yet no invalidation precedes the
notification — the claimed invalidate-before-notify ordering fails, so a
client that observed the notification can still read stale cache. -/
theorem effectOrder_counterexample :
    ((updateOrderStatus ⟨true, true, true⟩ dbOrderOne 1 "confirmed").2.2.any
        Effect.isNotify = true) ∧
    ((updateOrderStatus ⟨true, true, true⟩ dbOrderOne 1 "confirmed").2.2.any
        Effect.isInvalidate = true) ∧
    (((updateOrderStatus ⟨true, true, true⟩ dbOrderOne 1 "confirmed").2.2.takeWhile
        (fun e => !e.isNotify)).all (fun e => !e.isInvalidate) = true) ∧
    ((updateOrderStatus ⟨true, true, true⟩ dbOrderOne 1 "confirmed").2.2 =
      [Effect.commit 1, Effect.notifyKitchen, Effect.invalidate CacheKey.kitchenActive,
       Effect.invalidate (CacheKey.orderDetails 1), Effect.invalidate CacheKey.kitchenActive]) :=
  ⟨rfl, rfl, rfl, rfl⟩

/-- Claim C9 amended: for every committed status change, the store
commit is the first effect — so every invalidation happens strictly
after it — but the kitchen notification (emitted whenever `req.io` and a
kitchen registration are present) precedes every cache invalidation,
both the notifier's own kitchen-aggregate drop and the controller's
block, so a client that observes the notification may still read stale
cache until the drops complete. -/
theorem effectOrder_amended (env : Env) (db : DB) (oid : Nat) (s : String)
    (order : Order) (hf : db.findOrder oid = some order)
    (hne : order.status ≠ s) (hs : s ∈ orderStatusEnum)
    (hio : env.ioAvailable = true) (hk : env.kitchenRegistered = true) :
    (updateOrderStatus env db oid s).2.2.head? = some (Effect.commit oid) ∧
    ((updateOrderStatus env db oid s).2.2.takeWhile (fun e => !e.isNotify)).all
        (fun e => !e.isInvalidate) = true := by
  rw [updateOrderStatus_run env db oid s order hf hne hs]
  have hrel : s ∈ kitchenRelevantStatuses := orderStatusEnum_relevant s hs
  refine ⟨rfl, ?_⟩
  simp [hio, hk, hrel, notifyKitchenAboutOrderUpdate, Effect.isNotify,
    Effect.isInvalidate]

/-- Witness for the amended C9 on the concrete one-order store. -/
theorem effectOrder_witness :
    (updateOrderStatus ⟨true, true, true⟩ dbOrderOne 1 "confirmed").2.2.head? =
      some (Effect.commit 1) ∧
    (((updateOrderStatus ⟨true, true, true⟩ dbOrderOne 1 "confirmed").2.2.takeWhile
        (fun e => !e.isNotify)).all (fun e => !e.isInvalidate) = true) :=
  effectOrder_amended ⟨true, true, true⟩ dbOrderOne 1 "confirmed" ordPending rfl
    (by decide) (by decide) rfl rfl

/-- The active side and the completed side of the kitchen cache split
share no status. -/
theorem not_completed_of_active {x : String} (h : x ∈ activeStatuses) :
    x ∉ completedStatuses := by
  fin_cases h <;> decide

/-- The completed side and the active side of the kitchen cache split
share no status. -/
theorem not_active_of_completed {x : String} (h : x ∈ completedStatuses) :
    x ∉ activeStatuses := by
  fin_cases h <;> decide

/-- Which kitchen aggregate keys the controller's invalidation block
drops, as a function of the two statuses' sides. -/
theorem cacheDrop_kitchen_iff (db : DB) (oid : Nat) (order : Order) (s : String) :
    (CacheKey.kitchenActive ∈ deletedKeys (orderStatusCacheDrop db oid order s) ↔
      ((order.status ∈ activeStatuses ∧ s ∈ completedStatuses) ∨
       (order.status ∈ completedStatuses ∧ s ∈ activeStatuses) ∨
       (order.status ∈ activeStatuses ∧ s ∈ activeStatuses))) ∧
    (CacheKey.kitchenCompleted ∈ deletedKeys (orderStatusCacheDrop db oid order s) ↔
      ((order.status ∈ activeStatuses ∧ s ∈ completedStatuses) ∨
       (order.status ∈ completedStatuses ∧ s ∈ activeStatuses) ∨
       (order.status ∈ completedStatuses ∧ s ∈ completedStatuses))) := by
  unfold orderStatusCacheDrop
  by_cases hA1 : order.status ∈ activeStatuses <;>
    by_cases hC1 : order.status ∈ completedStatuses <;>
      by_cases hA2 : s ∈ activeStatuses <;>
        by_cases hC2 : s ∈ completedStatuses <;>
          rcases hu : order.user with _ | u <;>
            rcases hfs : db.sessions.find? (fun x => x.orders.contains oid) with _ | sess <;>
              (simp only [hu, hfs]; simp_all [deletedKeys])

/-- A commit effect contributes no dropped key. -/
theorem deletedKeys_commit_cons (oid : Nat) (l : List Effect) :
    deletedKeys (Effect.commit oid :: l) = deletedKeys l := rfl

/-- Dropped keys distribute over trace concatenation. -/
theorem deletedKeys_append (a b : List Effect) :
    deletedKeys (a ++ b) = deletedKeys a ++ deletedKeys b := by
  simp [deletedKeys]

/-- Fixture: one order already on the completed side. -/
def ordReady : Order :=
  ⟨1, none, [], none, 0, 0, 0, "Dine In", "ready_for_pickup", "pending", none⟩

/-- Fixture store holding only `ordReady`. -/
def dbOrderReady : DB :=
  { users := [], menuItems := [], orders := [ordReady], sessions := [],
    tables := [], bills := [] }

/-- Counterexample to C5: `ready_for_pickup → cancelled` keeps the
order on the completed side, yet with a kitchen display registered the
kitchen-active-orders key is dropped as well (the notifier deletes it
after emitting), so the claim's "the other side's aggregate key is not
deleted" fails. -/
theorem kitchenCache_counterexample :
    "ready_for_pickup" ∈ completedStatuses ∧ "cancelled" ∈ completedStatuses ∧
    CacheKey.kitchenActive ∈
      deletedKeys (updateOrderStatus ⟨true, true, true⟩ dbOrderReady 1 "cancelled").2.2 := by
  refine ⟨by decide, by decide, by decide⟩

/-- Claim C5 amended: for a successful status change with redis
connected, a boundary crossing drops both kitchen aggregates; a change
within the active side drops only the active aggregate; a change within
the completed side drops the completed aggregate, and additionally drops
the active aggregate exactly when `req.io` is present and a kitchen
endpoint is registered (the notifier's post-emit drop). -/
theorem kitchenCache_boundary_amended (env : Env) (db : DB) (oid : Nat) (s : String)
    (order : Order) (hf : db.findOrder oid = some order)
    (hs : s ∈ orderStatusEnum) (hne : order.status ≠ s)
    (hredis : env.redisConnected = true) :
    ((order.status ∈ activeStatuses ∧ s ∈ completedStatuses) ∨
       (order.status ∈ completedStatuses ∧ s ∈ activeStatuses) →
     CacheKey.kitchenActive ∈ deletedKeys (updateOrderStatus env db oid s).2.2 ∧
     CacheKey.kitchenCompleted ∈ deletedKeys (updateOrderStatus env db oid s).2.2) ∧
    (order.status ∈ activeStatuses ∧ s ∈ activeStatuses →
     CacheKey.kitchenActive ∈ deletedKeys (updateOrderStatus env db oid s).2.2 ∧
     CacheKey.kitchenCompleted ∉ deletedKeys (updateOrderStatus env db oid s).2.2) ∧
    (order.status ∈ completedStatuses ∧ s ∈ completedStatuses →
     CacheKey.kitchenCompleted ∈ deletedKeys (updateOrderStatus env db oid s).2.2 ∧
     (CacheKey.kitchenActive ∈ deletedKeys (updateOrderStatus env db oid s).2.2 ↔
        env.ioAvailable = true ∧ env.kitchenRegistered = true)) := by
  have hrel : s ∈ kitchenRelevantStatuses := orderStatusEnum_relevant s hs
  obtain ⟨hact, hcomp⟩ := cacheDrop_kitchen_iff db oid order s
  rw [updateOrderStatus_run env db oid s order hf hne hs]
  have hred : (if env.redisConnected = true then orderStatusCacheDrop db oid order s
      else []) = orderStatusCacheDrop db oid order s := by simp [hredis]
  have hnA : ∀ (b : Bool),
      (CacheKey.kitchenActive ∈
        deletedKeys (if b = true then notifyKitchenAboutOrderUpdate env else [])) ↔
      (b = true ∧ env.kitchenRegistered = true) := by
    intro b
    cases b <;> cases hkk : env.kitchenRegistered <;>
      simp [notifyKitchenAboutOrderUpdate, deletedKeys, hkk]
  have hnC : ∀ (b : Bool),
      CacheKey.kitchenCompleted ∉
        deletedKeys (if b = true then notifyKitchenAboutOrderUpdate env else []) := by
    intro b
    cases b <;> cases hkk : env.kitchenRegistered <;>
      simp [notifyKitchenAboutOrderUpdate, deletedKeys, hkk]
  simp only [hred, deletedKeys_commit_cons, deletedKeys_append, List.mem_append]
  refine ⟨?_, ?_, ?_⟩
  · intro hcr
    exact ⟨Or.inr (hact.mpr (hcr.elim Or.inl (fun h => Or.inr (Or.inl h)))),
           Or.inr (hcomp.mpr (hcr.elim Or.inl (fun h => Or.inr (Or.inl h))))⟩
  · rintro ⟨hA1, hA2⟩
    refine ⟨Or.inr (hact.mpr (Or.inr (Or.inr ⟨hA1, hA2⟩))), ?_⟩
    rintro (hmem | hmem)
    · exact hnC _ hmem
    · rcases hcomp.mp hmem with ⟨_, hC2⟩ | ⟨hC1, _⟩ | ⟨hC1, _⟩
      · exact not_completed_of_active hA2 hC2
      · exact not_completed_of_active hA1 hC1
      · exact not_completed_of_active hA1 hC1
  · rintro ⟨hC1, hC2⟩
    refine ⟨Or.inr (hcomp.mpr (Or.inr (Or.inr ⟨hC1, hC2⟩))), ?_, ?_⟩
    · rintro (hmem | hmem)
      · have hb := (hnA _).mp hmem
        exact ⟨((Bool.and_eq_true _ _).mp hb.1).1, hb.2⟩
      · rcases hact.mp hmem with ⟨hA1', _⟩ | ⟨_, hA2'⟩ | ⟨hA1', _⟩
        · exact absurd hA1' (not_active_of_completed hC1)
        · exact absurd hA2' (not_active_of_completed hC2)
        · exact absurd hA1' (not_active_of_completed hC1)
    · rintro ⟨hio, hk⟩
      refine Or.inl ((hnA _).mpr ⟨?_, hk⟩)
      simp [hio, hrel]

/-- Witness for the amended C5: the spec's own boundary example,
`preparing`-side `pending → cancelled`, drops both kitchen aggregates on
the concrete one-order store. -/
theorem kitchenCache_boundary_witness :
    CacheKey.kitchenActive ∈
      deletedKeys (updateOrderStatus ⟨true, true, true⟩ dbOrderOne 1 "cancelled").2.2 ∧
    CacheKey.kitchenCompleted ∈
      deletedKeys (updateOrderStatus ⟨true, true, true⟩ dbOrderOne 1 "cancelled").2.2 :=
  (kitchenCache_boundary_amended ⟨true, true, true⟩ dbOrderOne 1 "cancelled" ordPending
    rfl (by decide) (by decide) rfl).1 (by decide)

/-- Fixture: pending-payment order 1 attached to session 1. -/
def ordPend : Order :=
  ⟨1, none, [], none, 0, 0, 0, "Dine In", "pending", "pending", none⟩

/-- Fixture: a second unpaid order, id 2. -/
def ordPend2 : Order := { ordPend with id := 2 }

/-- Fixture: session 1 in `payment_pending` over order 1, at table 2. -/
def sessPend : TableSession :=
  { id := 1, tableId := 2, clientId := none, status := "payment_pending",
    startTime := 0, endTime := none, orders := [1] }

/-- Fixture: the occupied table 2 owning session 1. -/
def tabPend : Table :=
  { id := 2, tableId := "T2", status := "occupied", isActive := true,
    currentSession := some 1 }

/-- Fixture store where order 1 is the only (unpaid) order of session 1. -/
def dbCascadeA : DB :=
  { users := [], menuItems := [], orders := [ordPend], sessions := [sessPend],
    tables := [tabPend], bills := [] }

/-- Fixture: same store but the session holds a second, unpaid order. -/
def sessPendB : TableSession := { sessPend with orders := [1, 2] }

/-- Fixture store where session 1 holds orders 1 and 2, both unpaid. -/
def dbCascadeB : DB :=
  { dbCascadeA with orders := [ordPend, ordPend2], sessions := [sessPendB] }

/-- Witness for C1: paying the only order of the payment-pending session
closes it and sends the table to cleaning; paying order 1 while order 2
is still unpaid changes neither sessions nor tables. -/
theorem updatePaymentStatus_cascade_witness :
    ((updatePaymentStatus dbCascadeA 1 "paid" none 9).1 = ⟨200, true⟩ ∧
     (updatePaymentStatus dbCascadeA 1 "paid" none 9).2.findSession 1 =
       some { sessPend with status := "closed", endTime := some 9 } ∧
     (updatePaymentStatus dbCascadeA 1 "paid" none 9).2.findTable 2 =
       some { tabPend with status := "cleaning", currentSession := none }) ∧
    ((updatePaymentStatus dbCascadeB 1 "paid" none 9).1 = ⟨200, false⟩ ∧
     (updatePaymentStatus dbCascadeB 1 "paid" none 9).2.sessions = dbCascadeB.sessions ∧
     (updatePaymentStatus dbCascadeB 1 "paid" none 9).2.tables = dbCascadeB.tables) :=
  ⟨(updatePaymentStatus_cascade dbCascadeA 1 9 sessPend tabPend ordPend
      rfl rfl rfl rfl).1 (by decide),
   (updatePaymentStatus_cascade dbCascadeB 1 9 sessPendB tabPend ordPend
      rfl rfl rfl rfl).2 ⟨ordPend2, by decide, by decide, by decide, by decide⟩⟩

/-- Fixture: closed session 1 that already carries bill 7. -/
def sessClosed : TableSession :=
  { id := 1, tableId := 2, clientId := none, status := "closed",
    startTime := 0, endTime := some 3, orders := [] }

/-- Fixture: the bill of `sessClosed`. -/
def billClosed : Bill :=
  { id := 7, tableSessionId := 1, total := 0, paymentStatus := "pending",
    paymentMethod := none, processedBy := none }

/-- Fixture store with the closed, billed session. -/
def dbClosedBill : DB :=
  { users := [], menuItems := [], orders := [], sessions := [sessClosed],
    tables := [], bills := [billClosed] }

/-- Counterexample to C3: session 1 already has bill 7, yet the
end-session generation path rejects the request as already closed with a
400 carrying no bill id — it does not return the existing bill's id as
the claim states for every session that already has a bill. -/
theorem billGen_counterexample :
    dbClosedBill.bills.find? (fun b => b.tableSessionId == 1) = some billClosed ∧
    (endSessionAndGenerateBill dbClosedBill 1 99).1 = ⟨400, none⟩ := by
  exact ⟨rfl, rfl⟩

/-- Claim C3 amended: for a session that already has a bill, neither
generation path creates a second bill and the stored bill's total is
untouched; `generateBillForSession` answers 400 carrying the existing
bill's id, and `endSessionAndGenerateBill` answers 200 with the existing
bill's id whenever the session is not already closed (a closed session
is rejected with no bill id). -/
theorem billGen_idempotent_amended (db : DB) (sid fid : Nat) (b : Bill)
    (hbill : db.bills.find? (fun x => x.tableSessionId == sid) = some b) :
    generateBillForSession db sid fid = (⟨400, some b.id⟩, db) ∧
    (endSessionAndGenerateBill db sid fid).2.bills = db.bills ∧
    (∀ s, db.findSession sid = some s → s.status ≠ "closed" →
      (endSessionAndGenerateBill db sid fid).1 = ⟨200, some b.id⟩) := by
  refine ⟨?_, ?_, ?_⟩
  · simp [generateBillForSession, hbill]
  · unfold endSessionAndGenerateBill
    split
    · rfl
    split
    · rfl
    simp [hbill]
  · intro s hsess hnc
    unfold endSessionAndGenerateBill
    rw [hsess]
    dsimp only
    rw [if_neg hnc]
    simp [hbill]

/-- Fixture: payment-pending session 3 that already carries bill 8. -/
def sessPayPend : TableSession :=
  { id := 3, tableId := 2, clientId := none, status := "payment_pending",
    startTime := 0, endTime := none, orders := [] }

/-- Fixture: the bill of `sessPayPend`. -/
def billPayPend : Bill :=
  { id := 8, tableSessionId := 3, total := 0, paymentStatus := "pending",
    paymentMethod := none, processedBy := none }

/-- Fixture store with the payment-pending, billed session. -/
def dbPayPendBill : DB :=
  { users := [], menuItems := [], orders := [], sessions := [sessPayPend],
    tables := [], bills := [billPayPend] }

/-- Witness for the amended C3 on the payment-pending billed session:
both paths return bill 8's id and the bill list is unchanged. -/
theorem billGen_idempotent_witness :
    generateBillForSession dbPayPendBill 3 99 = (⟨400, some 8⟩, dbPayPendBill) ∧
    (endSessionAndGenerateBill dbPayPendBill 3 99).2.bills = dbPayPendBill.bills ∧
    (endSessionAndGenerateBill dbPayPendBill 3 99).1 = ⟨200, some 8⟩ := by
  obtain ⟨h1, h2, h3⟩ := billGen_idempotent_amended dbPayPendBill 3 99 billPayPend rfl
  exact ⟨h1, h2, h3 sessPayPend rfl (by decide)⟩

/-- Fixture: an inactive but otherwise available table. -/
def dbInactive : DB :=
  { users := [], menuItems := [], orders := [], sessions := [],
    tables := [⟨1, "T1", "available", false, none⟩], bills := [] }

/-- Counterexample to C6: starting a session on an inactive table is
rejected with HTTP 400, not the claimed 409 Conflict (the store is left
unchanged, so the no-mutation part does hold). -/
theorem startSession_conflict_counterexample :
    (startTableSession dbInactive 1 5 0).1.status = 400 ∧
    (startTableSession dbInactive 1 5 0).1.status ≠ 409 ∧
    (startTableSession dbInactive 1 5 0).2 = dbInactive := by
  refine ⟨rfl, by decide, rfl⟩

/-- Claim C6 amended: the conflicting start-session requests create no
session and leave the store untouched, but they are rejected with HTTP
400 (HTTP path: table inactive or not available; that path never checks
the client's sessions) or with a socket `error` event (socket path),
never 409; the socket path's already-active-session error carries the
conflicting session's id. -/
theorem startSession_conflicts_amended :
    (∀ db tid sid now t, db.findTable tid = some t → t.isActive = false →
       startTableSession db tid sid now = (⟨400, none⟩, db)) ∧
    (∀ db tid sid now t, db.findTable tid = some t → t.isActive = true →
       t.status ≠ "available" → startTableSession db tid sid now = (⟨400, none⟩, db)) ∧
    (∀ db code uid sid now t e,
       db.tables.find? (fun x => x.tableId == code) = some t →
       t.isActive = true → t.status = "available" → uid ∈ db.users →
       db.sessions.find? (fun x => x.clientId == some uid && x.status == "active") =
         some e →
       initiateSession db code uid sid now =
         (.err "You already have an active session at another table" (some e.id), db)) := by
  refine ⟨?_, ?_, ?_⟩
  · intro db tid sid now t hf hia
    simp [startTableSession, hf, hia]
  · intro db tid sid now t hf hia hst
    simp [startTableSession, hf, hia, hst]
  · intro db code uid sid now t e hf hia hst hu he
    simp only [initiateSession, hf, hia, hst, Bool.not_true, Bool.false_eq_true,
      if_false, if_neg (by simp : ¬"available" ≠ "available")]
    rw [if_neg (by simpa using hu)]
    rw [he]

/-- Fixture: client 9 already active in session 4 while table 2 sits
available. -/
def dbActiveSess : DB :=
  { users := [9], menuItems := [], orders := [],
    sessions := [⟨4, 3, some 9, "active", 0, none, []⟩],
    tables := [⟨2, "T2", "available", true, none⟩], bills := [] }

/-- Witness for the amended C6: the occupied-table HTTP conflict and the
socket-path conflict for client 9 on the concrete stores, the latter
carrying conflicting session 4. -/
theorem startSession_conflicts_witness :
    startTableSession dbOccupied 1 5 0 = (⟨400, none⟩, dbOccupied) ∧
    initiateSession dbActiveSess "T2" 9 5 0 =
      (.err "You already have an active session at another table" (some 4), dbActiveSess) :=
  ⟨startSession_conflicts_amended.2.1 dbOccupied 1 5 0
     ⟨1, "T1", "occupied", true, some 1⟩ rfl rfl (by decide),
   startSession_conflicts_amended.2.2 dbActiveSess "T2" 9 5 0
     ⟨2, "T2", "available", true, none⟩ ⟨4, 3, some 9, "active", 0, none, []⟩
     rfl rfl rfl (by decide) rfl⟩

end BackRedis
